import Mathlib

/-!
Verification of the PDF table export core of the GSSDA web application:
`Util/pdf_table.py` (table composing and pagination) and `Util/pdf_writer.py`
(low-level PDF serialization).  Python strings are embedded as `List Char`
(the code encodes every emitted string as latin-1, one byte per character,
so byte offsets coincide with character indices).  Fallible code paths
(list indexing that can raise `IndexError`) are embedded in `Option`.
-/

namespace GSSDA

/-- Python strings, one entry per character (= one latin-1 byte). -/
abbrev PyStr := List Char

/-- A render item `(text, font_size)` as produced by the table composer. -/
abbrev RenderItem := PyStr × Nat

/-- A page: an ordered list of render items. -/
abbrev PdfPage := List RenderItem

/-! ### Python string primitives used by the two modules -/

/-- Decimal digits of a natural number, fuel-indexed so the definition is
structural and kernel-reducible. -/
def natDigits : Nat → Nat → List Char
  | 0, _ => []
  | fuel + 1, n =>
    if n < 10 then [Nat.digitChar n]
    else natDigits fuel (n / 10) ++ [Nat.digitChar (n % 10)]

/-- Python `str(n)` for a natural number. -/
def pyStrNat (n : Nat) : PyStr := natDigits (n + 1) n

/-- Python `str(i)` for an integer. -/
def pyStrInt (i : Int) : PyStr :=
  if i < 0 then '-' :: pyStrNat i.natAbs else pyStrNat i.natAbs

/-- Python `s.ljust(w)`: left-justify, padding with spaces on the right. -/
def ljust (s : PyStr) (w : Nat) : PyStr := s ++ List.replicate (w - s.length) ' '

/-- Python `str.replace(old, new)` specialised to a one-character pattern,
which is the only way `pdf_writer._escape` uses it. -/
def pyReplaceChar (old : Char) (new : PyStr) : PyStr → PyStr
  | [] => []
  | c :: rest => (if c = old then new else [c]) ++ pyReplaceChar old new rest

/-- Whitespace characters stripped by Python `str.strip()`. -/
def pyIsSpace (c : Char) : Bool :=
  c = ' ' || c = '\t' || c = '\n' || c = '\r' || c = '\x0b' || c = '\x0c'

/-- Python `str.strip()`. -/
def pyStrip (s : PyStr) : PyStr :=
  ((s.dropWhile pyIsSpace).reverse.dropWhile pyIsSpace).reverse

/-- Python `str.split(sep)` for a one-character separator. -/
def splitOnChar (sep : Char) : PyStr → List PyStr
  | [] => [[]]
  | c :: rest =>
    match splitOnChar sep rest with
    | [] => [[]]
    | s :: ss => if c = sep then [] :: s :: ss else (c :: s) :: ss

/-- Python `str.splitlines()` for text whose line breaks are `\n` (the only
line terminator the export pipeline produces). -/
def pySplitlines (s : PyStr) : List PyStr :=
  if s = [] then []
  else if s.getLast? = some '\n' then (splitOnChar '\n' s).dropLast
  else splitOnChar '\n' s

/-- Python `f-string` zero padding `f"{n:010d}"` for a natural number. -/
def pad10 (n : Nat) : PyStr :=
  List.replicate (10 - (pyStrNat n).length) '0' ++ pyStrNat n

/-! ### `Util/pdf_writer.py` -/

def PAGE_WIDTH : Nat := 612
def PAGE_HEIGHT : Nat := 792
def MARGIN : Nat := 40

/-- `pdf_writer._escape`: backslash first, then the two parentheses. -/
def pdfEscape (value : PyStr) : PyStr :=
  pyReplaceChar ')' "\\)".toList
    (pyReplaceChar '(' "\\(".toList
      (pyReplaceChar '\\' "\\\\".toList value))

/-- Loop body of `pdf_writer._build_content_stream`: walk the items moving a
vertical cursor `y`, emitting one text-show command per item. -/
def contentCommands : List RenderItem → Int → List PyStr
  | [], _ => []
  | (text, size) :: rest, y =>
    let y2 : Int := y - size
    ("BT /F1 ".toList ++ pyStrNat size ++ " Tf ".toList ++ pyStrNat MARGIN
        ++ " ".toList ++ pyStrInt (max y2 (MARGIN : Int)) ++ " Td (".toList
        ++ pdfEscape text ++ ") Tj ET".toList)
      :: contentCommands rest (y2 - 4)

/-- `pdf_writer._build_content_stream`. -/
def buildContentStream (items : List RenderItem) : PyStr :=
  List.intercalate "\n".toList
    (contentCommands items ((PAGE_HEIGHT : Int) - (MARGIN : Int)))

/-- Body of a content-stream object: `<< /Length n >>\nstream\n...\nendstream`. -/
def contentObjBody (stream : PyStr) : PyStr :=
  "<< /Length ".toList ++ pyStrNat stream.length
    ++ " >>\nstream\n".toList ++ stream ++ "\nendstream".toList

/-- The single font object body emitted by `render_pdf`. -/
def fontBody : PyStr :=
  "<< /Type /Font /Subtype /Type1 /BaseFont /Courier >>".toList

/-- A page-dictionary body, filled in after the page tree id is known. -/
def pageDictBody (parent content font : Nat) : PyStr :=
  "<< /Type /Page /Parent ".toList ++ pyStrNat parent
    ++ " 0 R /MediaBox [0 0 ".toList ++ pyStrNat PAGE_WIDTH ++ " ".toList
    ++ pyStrNat PAGE_HEIGHT ++ "] /Contents ".toList ++ pyStrNat content
    ++ " 0 R /Resources << /Font << /F1 ".toList ++ pyStrNat font
    ++ " 0 R >> >> >>".toList

/-- The page-tree body `<< /Type /Pages /Count n /Kids [...] >>`. -/
def pagesTreeBody (count : Nat) (kids : PyStr) : PyStr :=
  "<< /Type /Pages /Count ".toList ++ pyStrNat count
    ++ " /Kids [".toList ++ kids ++ "] >>".toList

/-- The catalog body `<< /Type /Catalog /Pages n 0 R >>`. -/
def catalogBody (pagesId : Nat) : PyStr :=
  "<< /Type /Catalog /Pages ".toList ++ pyStrNat pagesId ++ " 0 R >>".toList

/-- `pdf_writer._add_object`: append a (possibly deferred) body, return its id. -/
def addObject (objects : List (Option PyStr)) (content : Option PyStr) :
    List (Option PyStr) × Nat :=
  (objects ++ [content], objects.length)

/-- The per-page loop of `render_pdf`: allocate a content object and a
deferred page object for each page, collecting `(page_id, content_id)`. -/
def addPages : List PdfPage → List (Option PyStr) → List (Option PyStr) × List (Nat × Nat)
  | [], objects => (objects, [])
  | page :: rest, objects =>
    let stream := buildContentStream page
    let p1 := addObject objects (some (contentObjBody stream))
    let p2 := addObject p1.1 none
    let res := addPages rest p2.1
    (res.1, (p2.2, p1.2) :: res.2)

/-- The `/Kids` string: page references joined with a space. -/
def kidsOf (refs : List (Nat × Nat)) : PyStr :=
  List.intercalate " ".toList (refs.map fun pr => pyStrNat pr.1 ++ " 0 R".toList)

/-- The loop filling every deferred page-dictionary body. -/
def fillPageDicts (pagesId fontId : Nat) (refs : List (Nat × Nat))
    (objects : List (Option PyStr)) : List (Option PyStr) :=
  refs.foldl (fun objs pr => objs.set pr.1 (some (pageDictBody pagesId pr.2 fontId))) objects

/-- Object-graph construction of `render_pdf`: the arena of indirect-object
bodies (index 0 is the unused placeholder) together with the catalog id. -/
def pdfArena (pages : List PdfPage) : List (Option PyStr) × Nat :=
  let p0 := addObject [none] (some fontBody)
  let font_id := p0.2
  let ap := addPages pages p0.1
  let page_refs := ap.2
  let p1 := addObject ap.1 none
  let pages_id := p1.2
  let p2 := addObject p1.1 none
  let catalog_id := p2.2
  let objs1 := p2.1.set pages_id (some (pagesTreeBody page_refs.length (kidsOf page_refs)))
  let objs2 := fillPageDicts pages_id font_id page_refs objs1
  let objs3 := objs2.set catalog_id (some (catalogBody pages_id))
  (objs3, catalog_id)

/-- The PDF header line. -/
def pdfHeader : PyStr := "%PDF-1.4\n".toList

/-- One object record: `"<id> 0 obj\n" ++ body ++ newline-fix ++ "endobj\n"`. -/
def objectRecord (index : Nat) (content : Option PyStr) : PyStr :=
  let body := content.getD []
  pyStrNat index ++ " 0 obj\n".toList ++ body
    ++ (if body.getLast? = some '\n' then [] else "\n".toList)
    ++ "endobj\n".toList

/-- Emit one object record after the output produced so far. -/
def emitObject (output : PyStr) (index : Nat) (content : Option PyStr) : PyStr :=
  output ++ objectRecord index content

/-- Serialization loop of `_build_pdf_bytes`: emit each object, recording the
output length right before it as its byte offset. -/
def emitObjects : PyStr → Nat → List (Option PyStr) → PyStr × List Nat
  | output, _, [] => (output, [])
  | output, index, c :: rest =>
    let off := output.length
    let output1 := emitObject output index c
    let res := emitObjects output1 (index + 1) rest
    (res.1, off :: res.2)

/-- The cross-reference entry lines, one fixed-format line per object. -/
def xrefEntries (offsets : List Nat) : PyStr :=
  (offsets.map fun off => pad10 off ++ " 00000 n \n".toList).flatten

/-- The xref section plus trailer appended after the object records:
`"xref\n0 <total>\n"`, the free entry for id 0, one entry per offset, then
`"trailer\n<< /Size <total> /Root <catalog> 0 R >>\nstartxref\n<pos>\n%%EOF"`. -/
def xrefTrailer (total catalog_id : Nat) (offsets : List Nat) (xref_position : Nat) : PyStr :=
  "xref\n0 ".toList ++ pyStrNat total ++ "\n".toList
    ++ "0000000000 65535 f \n".toList ++ xrefEntries offsets
    ++ "trailer\n<< /Size ".toList ++ pyStrNat total
    ++ " /Root ".toList ++ pyStrNat catalog_id
    ++ " 0 R >>\nstartxref\n".toList ++ pyStrNat xref_position
    ++ "\n%%EOF".toList

/-- `pdf_writer._build_pdf_bytes`: the object records, then the xref section
and trailer (`xref_position` is the output length right before `"xref"`). -/
def buildPdfBytes (objects : List (Option PyStr)) (catalog_id : Nat) : PyStr :=
  let pr := emitObjects pdfHeader 1 objects.tail
  pr.1 ++ xrefTrailer objects.length catalog_id pr.2 pr.1.length

/-- `pdf_writer.render_pdf`. -/
def render_pdf (pages : List PdfPage) : PyStr :=
  buildPdfBytes (pdfArena pages).1 (pdfArena pages).2

/-- The cross-reference offsets recorded while serializing `render_pdf pages`. -/
def pdfOffsets (pages : List PdfPage) : List Nat :=
  (emitObjects pdfHeader 1 (pdfArena pages).1.tail).2

/-! ### `Util/pdf_table.py` -/

/-- `pdf_table._split_cell`: `None` becomes `""`; split on line breaks
(`or [""]` restores one empty part for empty text); strip each part. -/
def splitCell (value : Option PyStr) : List PyStr :=
  let text := value.getD []
  let parts := if pySplitlines text = [] then [[]] else pySplitlines text
  parts.map pyStrip

/-- Option-valued `mapM` over lists, written structurally so its equations
are plain rewriting rules (models a Python list comprehension that may raise). -/
def mapMOpt {α β : Type} (f : α → Option β) : List α → Option (List β)
  | [] => some []
  | a :: rest =>
    (f a).bind fun b => (mapMOpt f rest).map fun bs => b :: bs

/-- Option-valued left fold over lists (models a Python loop that may raise). -/
def foldlMOpt {α β : Type} (f : β → α → Option β) : β → List α → Option β
  | b, [] => some b
  | b, a :: rest => (f b a).bind fun b2 => foldlMOpt f b2 rest

/-- One `widths[index] = max(widths[index], len(part))` update; out-of-range
indexing raises `IndexError`, embedded as `none`. -/
def updWidth (ws : List Nat) (index : Nat) (part : PyStr) : Option (List Nat) :=
  if index < ws.length then some (ws.set index (max (ws.getD index 0) part.length))
  else none

/-- The per-row width pass of `pdf_table._column_widths`
(`for index, parts in enumerate(row): for part in parts: ...`). -/
def updRowWidths (ws : List Nat) (row : List (List PyStr)) : Option (List Nat) :=
  foldlMOpt (fun ws ip => foldlMOpt (fun ws part => updWidth ws ip.1 part) ws ip.2)
    ws row.enum

/-- `pdf_table._column_widths`: header lengths, widened by every wrapped cell
part, plus 2 padding. -/
def columnWidths (headers : List PyStr) (rows : List (List (List PyStr))) :
    Option (List Nat) :=
  (foldlMOpt updRowWidths (headers.map List.length) rows).map (List.map (· + 2))

/-- `pdf_table._format_row`: left-justify each cell to its column width and
join with `" | "`; indexing `widths[index]` past the end raises, hence `Option`. -/
def formatRow (cells : List PyStr) (widths : List Nat) : Option PyStr :=
  (mapMOpt (fun ic => (widths.get? ic.1).map fun w => ljust ic.2 w) cells.enum).map
    (List.intercalate " | ".toList)

/-- `pdf_table._separator`. -/
def separatorLine (widths : List Nat) : PyStr :=
  List.intercalate "-+-".toList (widths.map fun w => List.replicate w '-')

/-- Height of one table row: the maximum number of wrapped parts, 1 if the
row has no cells. -/
def rowHeight (row_segments : List (List PyStr)) : Nat :=
  if row_segments = [] then 1 else (row_segments.map List.length).foldl max 0

/-- The formatted lines of one table row (one line per wrapped-part index). -/
def rowLines (row_segments : List (List PyStr)) (widths : List Nat) :
    Option (List PyStr) :=
  mapMOpt (fun index => formatRow (row_segments.map fun parts => parts.getD index []) widths)
    (List.range (rowHeight row_segments))

/-- The body of the table: each row's lines followed by a separator (the
loop `for row_segments in splits` of `_build_table_lines`, emitted in order). -/
def bodyLines : List (List (List PyStr)) → List Nat → PyStr → Option (List PyStr)
  | [], _, _ => some []
  | rs :: rest, widths, sep =>
    (rowLines rs widths).bind fun ls =>
      (bodyLines rest widths sep).map fun tail => ls ++ [sep] ++ tail

/-- `pdf_table._build_table_lines`. -/
def buildTableLines (headers : List PyStr) (rows : List (List (Option PyStr))) :
    Option (List PyStr) :=
  let splits := rows.map (·.map splitCell)
  (columnWidths headers splits).bind fun col_widths =>
    (formatRow headers col_widths).bind fun header_line =>
      let sep := separatorLine col_widths
      (bodyLines splits col_widths sep).map fun body =>
        [header_line, sep] ++ body ++ if splits = [] then [sep] else []

/-- Loop of `pdf_table._paginate`: greedy forward pass with the running
`used` budget; a page closes exactly when it is non-empty and the next step
would exceed the usable height. -/
def paginateGo : List RenderItem → List PdfPage → PdfPage → Nat → List PdfPage
  | [], pages, current, _ =>
    if current = [] then pages ++ [[(([] : PyStr), 10)]] else pages ++ [current]
  | (text, size) :: rest, pages, current, used =>
    let step := size + 4
    if current ≠ [] ∧ used + step > PAGE_HEIGHT - 2 * MARGIN then
      paginateGo rest (pages ++ [current]) [(text, size)] step
    else
      paginateGo rest pages (current ++ [(text, size)]) (used + step)

/-- `pdf_table._paginate`. -/
def paginate (items : List RenderItem) : List PdfPage := paginateGo items [] [] 0

/-- The render items and pages produced by `build_pdf_table` before encoding. -/
def pipelinePages (title : PyStr) (headers : List PyStr)
    (rows : List (List (Option PyStr))) : Option (List PdfPage) :=
  (buildTableLines headers rows).map fun lines =>
    paginate ([(title, 16), (([] : PyStr), 12)] ++ lines.map (fun l => (l, 10)))

/-- `pdf_table.build_pdf_table`: compose then encode. -/
def build_pdf_table (title : PyStr) (headers : List PyStr)
    (rows : List (List (Option PyStr))) : Option PyStr :=
  (pipelinePages title headers rows).map render_pdf

/-! ### Model vocabulary used only in the statements -/

/-- Classify an arena slot by a fixed textual tag at the start of its body. -/
def bodyIs (tag : PyStr) (o : Option PyStr) : Bool :=
  decide ((o.getD []).take tag.length = tag)

def fontTag : PyStr := "<< /Type /Font".toList
def contentTag : PyStr := "<< /Length".toList
def pageTag : PyStr := "<< /Type /Page /".toList
def treeTag : PyStr := "<< /Type /Pages".toList
def catalogTag : PyStr := "<< /Type /Catalog".toList

/-- Closed form of the `(page_id, content_id)` pairs allocated by `addPages`
when the arena already holds `start` objects. -/
def pageRefsFrom : Nat → List PdfPage → List (Nat × Nat)
  | _, [] => []
  | start, _ :: rest => (start + 1, start) :: pageRefsFrom (start + 2) rest

/-- Closed form of the per-page arena slots before the page dictionaries are
filled in: content body, then a deferred slot. -/
def rawBlocks (ps : List PdfPage) : List (Option PyStr) :=
  ps.flatMap fun p => [some (contentObjBody (buildContentStream p)), none]

/-- Closed form of the per-page arena slots after filling: content body, then
the page dictionary referencing it. -/
def filledBlocks (pid fid : Nat) : Nat → List PdfPage → List (Option PyStr)
  | _, [] => []
  | start, p :: rest =>
    some (contentObjBody (buildContentStream p))
      :: some (pageDictBody pid start fid)
      :: filledBlocks pid fid (start + 2) rest

/-- The spec's own wording of `formatRow` ("left-pad (space-fill) each cell"),
kept separate so it can be compared with the code's behaviour. -/
def padLeftSpec (s : PyStr) (w : Nat) : PyStr :=
  List.replicate (w - s.length) ' ' ++ s

/-- Spec-worded variant of `formatRow` that pads each cell on the left. -/
def formatRowSpecLeftPad (cells : List PyStr) (widths : List Nat) : Option PyStr :=
  (mapMOpt (fun ic => (widths.get? ic.1).map fun w => padLeftSpec ic.2 w) cells.enum).map
    (List.intercalate " | ".toList)

/-! ## Helper lemmas -/

theorem natDigits_fuel : ∀ f g n, n < f → n < g → natDigits f n = natDigits g n := by
  intro f
  induction f with
  | zero => intro g n h; omega
  | succ f ih =>
    intro g n hf hg
    cases g with
    | zero => omega
    | succ g =>
      by_cases h10 : n < 10
      · simp [natDigits, h10]
      · have hdiv : n / 10 < n := Nat.div_lt_self (by omega) (by omega)
        simp only [natDigits, h10, if_false]
        rw [ih g (n / 10) (by omega) (by omega)]

theorem pyStrNat_ten_le (n : Nat) (h : 10 ≤ n) :
    pyStrNat n = pyStrNat (n / 10) ++ [Nat.digitChar (n % 10)] := by
  have hdiv : n / 10 < n := Nat.div_lt_self (by omega) (by omega)
  show natDigits (n + 1) n = _
  simp only [natDigits, Nat.not_lt.2 h, if_false]
  rw [natDigits_fuel n (n / 10 + 1) (n / 10) (by omega) (by omega)]
  rfl

theorem pyStrNat_lt_ten (n : Nat) (h : n < 10) : pyStrNat n = [Nat.digitChar n] := by
  simp [pyStrNat, natDigits, h]

theorem pyStrNat_length_le : ∀ k n, 0 < k → n < 10 ^ k → (pyStrNat n).length ≤ k := by
  intro k
  induction k with
  | zero => omega
  | succ k ih =>
    intro n _ hn
    by_cases h10 : n < 10
    · rw [pyStrNat_lt_ten n h10]; simp
    · have hk : 0 < k := by
        rcases Nat.eq_zero_or_pos k with h0 | h0
        · subst h0; simp at hn; omega
        · exact h0
      have hdiv : n / 10 < 10 ^ k := by
        rw [Nat.div_lt_iff_lt_mul (by omega : 0 < 10)]
        calc n < 10 ^ (k + 1) := hn
          _ = 10 ^ k * 10 := by rw [pow_succ]
      rw [pyStrNat_ten_le n (by omega)]
      have := ih (n / 10) hk hdiv
      simp only [List.length_append, List.length_cons, List.length_nil]
      omega

theorem pad10_length (n : Nat) (h : n < 10 ^ 10) : (pad10 n).length = 10 := by
  have hle := pyStrNat_length_le 10 n (by norm_num) h
  simp only [pad10, List.length_append, List.length_replicate]
  omega

theorem take_append_of_le {α : Type} (a b : List α) (n : Nat) (h : n ≤ a.length) :
    (a ++ b).take n = a.take n := by
  rw [List.take_append_eq_append_take, Nat.sub_eq_zero_of_le h, List.take_zero,
    List.append_nil]

theorem set_append_add {α : Type} :
    ∀ (a b : List α) (n : Nat) (v : α), (a ++ b).set (a.length + n) v = a ++ b.set n v := by
  intro a
  induction a with
  | nil => simp
  | cons x a ih =>
    intro b n v
    have hidx : (x :: a).length + n = (a.length + n) + 1 := by simp; omega
    rw [hidx]
    simp only [List.cons_append, List.set_cons_succ]
    rw [ih]

/-! ## Serialization lemmas (`_build_pdf_bytes`) -/

theorem emitObjects_fst_append :
    ∀ (rest : List (Option PyStr)) (output : PyStr) (idx : Nat),
      ∃ t, (emitObjects output idx rest).1 = output ++ t := by
  intro rest
  induction rest with
  | nil => intro output idx; exact ⟨[], by simp [emitObjects]⟩
  | cons c rest ih =>
    intro output idx
    obtain ⟨t, ht⟩ := ih (emitObject output idx c) (idx + 1)
    refine ⟨objectRecord idx c ++ t, ?_⟩
    show (emitObjects (emitObject output idx c) (idx + 1) rest).1 = _
    rw [ht]
    simp [emitObject, List.append_assoc]

theorem emitObjects_snd_length :
    ∀ (rest : List (Option PyStr)) (output : PyStr) (idx : Nat),
      (emitObjects output idx rest).2.length = rest.length := by
  intro rest
  induction rest with
  | nil => intro output idx; simp [emitObjects]
  | cons c rest ih => intro output idx; simp [emitObjects, ih]

theorem emitObjects_pos :
    ∀ (rest : List (Option PyStr)) (output : PyStr) (idx k off : Nat),
      (emitObjects output idx rest).2.get? k = some off →
      ∃ a b, (emitObjects output idx rest).1
          = a ++ (pyStrNat (idx + k) ++ " 0 obj\n".toList) ++ b ∧ a.length = off := by
  intro rest
  induction rest with
  | nil => intro output idx k off h; simp [emitObjects] at h
  | cons c rest ih =>
    intro output idx k off h
    match k with
    | 0 =>
      have hoff : off = output.length := by
        simp [emitObjects] at h; omega
      subst hoff
      obtain ⟨t, ht⟩ := emitObjects_fst_append rest (emitObject output idx c) (idx + 1)
      refine ⟨output,
        ((c.getD []) ++ (if (c.getD []).getLast? = some '\n' then [] else "\n".toList)
          ++ "endobj\n".toList) ++ t, ?_, rfl⟩
      show (emitObjects (emitObject output idx c) (idx + 1) rest).1 = _
      rw [ht]
      simp [emitObject, objectRecord, List.append_assoc]
    | k + 1 =>
      have h2 : (emitObjects (emitObject output idx c) (idx + 1) rest).2.get? k = some off := by
        simpa [emitObjects] using h
      obtain ⟨a, b, h1, hlen⟩ := ih (emitObject output idx c) (idx + 1) k off h2
      have harith : idx + (k + 1) = idx + 1 + k := by omega
      rw [harith]
      exact ⟨a, b, h1, hlen⟩

theorem exists_decomp_extend {α : Type} {x y : List α} {a p b : List α}
    (hx : x = a ++ p ++ b) (hxy : ∃ t, y = x ++ t) : ∃ b2, y = a ++ p ++ b2 := by
  obtain ⟨t, ht⟩ := hxy
  exact ⟨b ++ t, by subst ht; subst hx; simp [List.append_assoc]⟩

/-! ## Object-graph lemmas (`render_pdf`) -/

theorem rawBlocks_length (ps : List PdfPage) : (rawBlocks ps).length = 2 * ps.length := by
  induction ps with
  | nil => simp [rawBlocks]
  | cons p rest ih =>
    simp only [rawBlocks, List.flatMap_cons] at ih ⊢
    simp only [List.length_append, List.length_cons, List.length_nil, ih]
    omega

theorem filledBlocks_length (pid fid : Nat) :
    ∀ (start : Nat) (ps : List PdfPage),
      (filledBlocks pid fid start ps).length = 2 * ps.length := by
  intro start ps
  induction ps generalizing start with
  | nil => simp [filledBlocks]
  | cons p rest ih =>
    simp only [filledBlocks, List.length_cons, ih]
    omega

theorem pageRefsFrom_length : ∀ (start : Nat) (ps : List PdfPage),
    (pageRefsFrom start ps).length = ps.length := by
  intro start ps
  induction ps generalizing start with
  | nil => simp [pageRefsFrom]
  | cons p rest ih => simp [pageRefsFrom, ih]

theorem addPages_eq : ∀ (ps : List PdfPage) (objs : List (Option PyStr)),
    addPages ps objs = (objs ++ rawBlocks ps, pageRefsFrom objs.length ps) := by
  intro ps
  induction ps with
  | nil => intro objs; simp [addPages, rawBlocks, pageRefsFrom]
  | cons p rest ih =>
    intro objs
    simp only [addPages, addObject, ih, rawBlocks, List.flatMap_cons, pageRefsFrom,
      Prod.mk.injEq]
    refine ⟨by simp [List.append_assoc], ?_⟩
    have h1 : ((objs ++ [some (contentObjBody (buildContentStream p))]).length, objs.length)
        = (objs.length + 1, objs.length) := by simp
    have h2 : (objs ++ [some (contentObjBody (buildContentStream p))] ++ [none]).length
        = objs.length + 2 := by simp
    rw [h1, h2]

theorem fillPageDicts_cons (pid fid : Nat) (r : Nat × Nat) (refs : List (Nat × Nat))
    (objs : List (Option PyStr)) :
    fillPageDicts pid fid (r :: refs) objs
      = fillPageDicts pid fid refs (objs.set r.1 (some (pageDictBody pid r.2 fid))) := rfl

theorem fillPageDicts_eq :
    ∀ (ps : List PdfPage) (pre suffix : List (Option PyStr)) (pid fid : Nat),
      fillPageDicts pid fid (pageRefsFrom pre.length ps) (pre ++ (rawBlocks ps ++ suffix))
        = pre ++ (filledBlocks pid fid pre.length ps ++ suffix) := by
  intro ps
  induction ps with
  | nil =>
    intro pre suffix pid fid
    simp [fillPageDicts, pageRefsFrom, rawBlocks, filledBlocks]
  | cons p rest ih =>
    intro pre suffix pid fid
    simp only [pageRefsFrom, rawBlocks, List.flatMap_cons, filledBlocks,
      List.cons_append, List.nil_append, fillPageDicts_cons]
    have hset : (pre ++ (some (contentObjBody (buildContentStream p)) :: none
          :: (rest.flatMap (fun q =>
              [some (contentObjBody (buildContentStream q)), none]) ++ suffix))).set
          (pre.length + 1) (some (pageDictBody pid pre.length fid))
        = pre ++ (some (contentObjBody (buildContentStream p))
            :: some (pageDictBody pid pre.length fid)
            :: (rest.flatMap (fun q =>
                [some (contentObjBody (buildContentStream q)), none]) ++ suffix)) := by
      rw [set_append_add]
      simp [List.set]
    rw [hset]
    have h2 := ih (pre ++ [some (contentObjBody (buildContentStream p)),
        some (pageDictBody pid pre.length fid)]) suffix pid fid
    simp only [List.length_append, List.length_cons, List.length_nil, rawBlocks,
      List.append_assoc, List.cons_append, List.nil_append] at h2
    have harith : pre.length + (0 + 1 + 1) = pre.length + 2 := by omega
    rw [harith] at h2
    exact h2

theorem pdfArena_eq (pages : List PdfPage) :
    pdfArena pages =
      ([none, some fontBody]
        ++ (filledBlocks (2 * pages.length + 2) 1 2 pages
          ++ [some (pagesTreeBody pages.length (kidsOf (pageRefsFrom 2 pages))),
              some (catalogBody (2 * pages.length + 2))]),
       2 * pages.length + 3) := by
  unfold pdfArena
  simp only [addObject, addPages_eq]
  simp only [List.length_append, List.length_cons, List.length_nil, rawBlocks_length,
    List.cons_append, List.nil_append]
  norm_num
  have e2 : 2 * pages.length + 1 + 1 = 2 * pages.length + 2 := by omega
  rw [e2]
  have e3 : 2 * pages.length + 2 + 1 = 2 * pages.length + 3 := by omega
  rw [e3]
  simp only [pageRefsFrom_length]
  have hset1 := set_append_add (rawBlocks pages) ([none, none] : List (Option PyStr)) 0
    (some (pagesTreeBody pages.length (kidsOf (pageRefsFrom 2 pages))))
  rw [rawBlocks_length] at hset1
  simp only [Nat.add_zero, List.set_cons_zero] at hset1
  rw [hset1]
  have hfill := fillPageDicts_eq pages [none, some fontBody]
    [some (pagesTreeBody pages.length (kidsOf (pageRefsFrom 2 pages))), none]
    (2 * pages.length + 2) 1
  simp only [List.length_cons, List.length_nil, List.cons_append, List.nil_append,
    Nat.zero_add, Nat.reduceAdd] at hfill
  rw [hfill]
  have hset2 := set_append_add (filledBlocks (2 * pages.length + 2) 1 2 pages)
    ([some (pagesTreeBody pages.length (kidsOf (pageRefsFrom 2 pages))), none] :
      List (Option PyStr)) 1
    (some (catalogBody (2 * pages.length + 2)))
  rw [filledBlocks_length] at hset2
  simp only [List.set_cons_succ, List.set_cons_zero] at hset2
  have e5 : 2 * pages.length + 3 = (2 * pages.length + 1) + 2 := by omega
  rw [e5]
  simp only [List.set_cons_succ]
  rw [hset2]

/-! ## Classifying arena slots -/

theorem bodyIs_of_take_eq (tag a b : PyStr) (hlen : tag.length <= a.length)
    (h : a.take tag.length = tag) : bodyIs tag (some (a ++ b)) = true := by
  simp [bodyIs, take_append_of_le a b _ hlen, h]

theorem bodyIs_ne_of_take_ne (tag a b : PyStr) (k : Nat) (h1 : k <= a.length)
    (h2 : k <= tag.length) (h3 : a.take k ≠ tag.take k) :
    bodyIs tag (some (a ++ b)) = false := by
  simp only [bodyIs, Option.getD_some, decide_eq_false_iff_not]
  intro h
  apply h3
  have h4 := congrArg (List.take k) h
  rw [List.take_take, Nat.min_eq_left h2, take_append_of_le a b k h1] at h4
  exact h4

theorem bodyIs_none_tag (tag : PyStr) (h : tag ≠ []) : bodyIs tag none = false := by
  simp only [bodyIs, Option.getD_none, List.take_nil, decide_eq_false_iff_not]
  exact fun hh => h hh.symm

theorem bodyIs_fontBody :
    bodyIs contentTag (some fontBody) = false ∧ bodyIs pageTag (some fontBody) = false ∧
    bodyIs fontTag (some fontBody) = true ∧ bodyIs treeTag (some fontBody) = false ∧
    bodyIs catalogTag (some fontBody) = false := by decide

theorem bodyIs_contentObj (s : PyStr) :
    bodyIs contentTag (some (contentObjBody s)) = true ∧
    bodyIs pageTag (some (contentObjBody s)) = false ∧
    bodyIs fontTag (some (contentObjBody s)) = false ∧
    bodyIs treeTag (some (contentObjBody s)) = false ∧
    bodyIs catalogTag (some (contentObjBody s)) = false := by
  simp only [contentObjBody, List.append_assoc]
  exact ⟨bodyIs_of_take_eq _ _ _ (by decide) (by decide),
    bodyIs_ne_of_take_ne _ _ _ 5 (by decide) (by decide) (by decide),
    bodyIs_ne_of_take_ne _ _ _ 5 (by decide) (by decide) (by decide),
    bodyIs_ne_of_take_ne _ _ _ 5 (by decide) (by decide) (by decide),
    bodyIs_ne_of_take_ne _ _ _ 5 (by decide) (by decide) (by decide)⟩

theorem bodyIs_pageDict (p c f : Nat) :
    bodyIs contentTag (some (pageDictBody p c f)) = false ∧
    bodyIs pageTag (some (pageDictBody p c f)) = true ∧
    bodyIs fontTag (some (pageDictBody p c f)) = false ∧
    bodyIs treeTag (some (pageDictBody p c f)) = false ∧
    bodyIs catalogTag (some (pageDictBody p c f)) = false := by
  simp only [pageDictBody, List.append_assoc]
  exact ⟨bodyIs_ne_of_take_ne _ _ _ 5 (by decide) (by decide) (by decide),
    bodyIs_of_take_eq _ _ _ (by decide) (by decide),
    bodyIs_ne_of_take_ne _ _ _ 11 (by decide) (by decide) (by decide),
    bodyIs_ne_of_take_ne _ _ _ 15 (by decide) (by decide) (by decide),
    bodyIs_ne_of_take_ne _ _ _ 11 (by decide) (by decide) (by decide)⟩

theorem bodyIs_treeBody (n : Nat) (kids : PyStr) :
    bodyIs contentTag (some (pagesTreeBody n kids)) = false ∧
    bodyIs pageTag (some (pagesTreeBody n kids)) = false ∧
    bodyIs fontTag (some (pagesTreeBody n kids)) = false ∧
    bodyIs treeTag (some (pagesTreeBody n kids)) = true ∧
    bodyIs catalogTag (some (pagesTreeBody n kids)) = false := by
  simp only [pagesTreeBody, List.append_assoc]
  exact ⟨bodyIs_ne_of_take_ne _ _ _ 5 (by decide) (by decide) (by decide),
    bodyIs_ne_of_take_ne _ _ _ 16 (by decide) (by decide) (by decide),
    bodyIs_ne_of_take_ne _ _ _ 11 (by decide) (by decide) (by decide),
    bodyIs_of_take_eq _ _ _ (by decide) (by decide),
    bodyIs_ne_of_take_ne _ _ _ 11 (by decide) (by decide) (by decide)⟩

theorem bodyIs_catalogBodyObj (n : Nat) :
    bodyIs contentTag (some (catalogBody n)) = false ∧
    bodyIs pageTag (some (catalogBody n)) = false ∧
    bodyIs fontTag (some (catalogBody n)) = false ∧
    bodyIs treeTag (some (catalogBody n)) = false ∧
    bodyIs catalogTag (some (catalogBody n)) = true := by
  simp only [catalogBody, List.append_assoc]
  exact ⟨bodyIs_ne_of_take_ne _ _ _ 5 (by decide) (by decide) (by decide),
    bodyIs_ne_of_take_ne _ _ _ 11 (by decide) (by decide) (by decide),
    bodyIs_ne_of_take_ne _ _ _ 11 (by decide) (by decide) (by decide),
    bodyIs_ne_of_take_ne _ _ _ 11 (by decide) (by decide) (by decide),
    bodyIs_of_take_eq _ _ _ (by decide) (by decide)⟩

theorem filledBlocks_countP :
    ∀ (ps : List PdfPage) (pid fid start : Nat),
      (filledBlocks pid fid start ps).countP (bodyIs contentTag) = ps.length ∧
      (filledBlocks pid fid start ps).countP (bodyIs pageTag) = ps.length ∧
      (filledBlocks pid fid start ps).countP (bodyIs fontTag) = 0 ∧
      (filledBlocks pid fid start ps).countP (bodyIs treeTag) = 0 ∧
      (filledBlocks pid fid start ps).countP (bodyIs catalogTag) = 0 := by
  intro ps
  induction ps with
  | nil => intro pid fid start; simp [filledBlocks]
  | cons p rest ih =>
    intro pid fid start
    obtain ⟨i1, i2, i3, i4, i5⟩ := ih pid fid (start + 2)
    obtain ⟨c1, c2, c3, c4, c5⟩ := bodyIs_contentObj (buildContentStream p)
    obtain ⟨d1, d2, d3, d4, d5⟩ := bodyIs_pageDict pid start fid
    simp [filledBlocks, List.countP_cons, i1, i2, i3, i4, i5, c1, c2, c3, c4, c5,
      d1, d2, d3, d4, d5]

theorem pdfArena_counts (pages : List PdfPage) :
    (pdfArena pages).1.countP (bodyIs fontTag) = 1 ∧
    (pdfArena pages).1.countP (bodyIs contentTag) = pages.length ∧
    (pdfArena pages).1.countP (bodyIs pageTag) = pages.length ∧
    (pdfArena pages).1.countP (bodyIs treeTag) = 1 ∧
    (pdfArena pages).1.countP (bodyIs catalogTag) = 1 := by
  obtain ⟨f1, f2, f3, f4, f5⟩ := filledBlocks_countP pages (2 * pages.length + 2) 1 2
  obtain ⟨b1, b2, b3, b4, b5⟩ := bodyIs_fontBody
  obtain ⟨t1, t2, t3, t4, t5⟩ :=
    bodyIs_treeBody pages.length (kidsOf (pageRefsFrom 2 pages))
  obtain ⟨g1, g2, g3, g4, g5⟩ := bodyIs_catalogBodyObj (2 * pages.length + 2)
  rw [pdfArena_eq]
  simp [List.countP_append, List.countP_cons, f1, f2, f3, f4, f5, b1, b2, b3, b4, b5,
    t1, t2, t3, t4, t5, g1, g2, g3, g4, g5,
    bodyIs_none_tag fontTag (by decide), bodyIs_none_tag contentTag (by decide),
    bodyIs_none_tag pageTag (by decide), bodyIs_none_tag treeTag (by decide),
    bodyIs_none_tag catalogTag (by decide)]

theorem filledBlocks_getElem :
    ∀ (ps : List PdfPage) (pid fid start k : Nat), k < ps.length →
      (filledBlocks pid fid start ps)[2 * k]?
          = some (some (contentObjBody (buildContentStream (ps.getD k [])))) ∧
      (filledBlocks pid fid start ps)[2 * k + 1]?
          = some (some (pageDictBody pid (start + 2 * k) fid)) := by
  intro ps
  induction ps with
  | nil => intro pid fid start k h; simp at h
  | cons p rest ih =>
    intro pid fid start k h
    match k with
    | 0 => simp [filledBlocks]
    | k + 1 =>
      have hk : k < rest.length := by
        simp only [List.length_cons] at h
        omega
      obtain ⟨g1, g2⟩ := ih pid fid (start + 2) k hk
      have e1 : 2 * (k + 1) = 2 * k + 1 + 1 := by omega
      have e2 : 2 * (k + 1) + 1 = (2 * k + 1) + 1 + 1 := by omega
      constructor
      · rw [e1]
        simp only [filledBlocks, List.getElem?_cons_succ, List.getD_cons_succ]
        exact g1
      · rw [e2]
        simp only [filledBlocks, List.getElem?_cons_succ]
        rw [g2]
        have e3 : start + 2 + 2 * k = start + 2 * (k + 1) := by omega
        rw [e3]

theorem pdfArena_getElem_font (pages : List PdfPage) :
    (pdfArena pages).1[1]? = some (some fontBody) := by
  rw [pdfArena_eq]
  simp

theorem pdfArena_getElem_page (pages : List PdfPage) (k : Nat) (h : k < pages.length) :
    (pdfArena pages).1[2 * k + 2]?
        = some (some (contentObjBody (buildContentStream (pages.getD k [])))) ∧
    (pdfArena pages).1[2 * k + 3]?
        = some (some (pageDictBody (2 * pages.length + 2) (2 + 2 * k) 1)) := by
  obtain ⟨g1, g2⟩ := filledBlocks_getElem pages (2 * pages.length + 2) 1 2 k h
  have hfl : (filledBlocks (2 * pages.length + 2) 1 2 pages).length = 2 * pages.length :=
    filledBlocks_length _ _ _ _
  rw [pdfArena_eq]
  have e1 : 2 * k + 2 = (2 * k + 1) + 1 := by omega
  have e2 : 2 * k + 3 = ((2 * k + 1) + 1) + 1 := by omega
  constructor
  · rw [e1]
    simp only [List.cons_append, List.nil_append, List.getElem?_cons_succ]
    rw [List.getElem?_append_left (by omega : 2 * k <
      (filledBlocks (2 * pages.length + 2) 1 2 pages).length)]
    exact g1
  · rw [e2]
    simp only [List.cons_append, List.nil_append, List.getElem?_cons_succ]
    rw [List.getElem?_append_left (by omega : 2 * k + 1 <
      (filledBlocks (2 * pages.length + 2) 1 2 pages).length)]
    exact g2

theorem pdfArena_getElem_tree (pages : List PdfPage) :
    (pdfArena pages).1[2 * pages.length + 2]?
        = some (some (pagesTreeBody pages.length (kidsOf (pageRefsFrom 2 pages)))) ∧
    (pdfArena pages).1[2 * pages.length + 3]?
        = some (some (catalogBody (2 * pages.length + 2))) := by
  have hfl : (filledBlocks (2 * pages.length + 2) 1 2 pages).length = 2 * pages.length :=
    filledBlocks_length _ _ _ _
  rw [pdfArena_eq]
  have e1 : 2 * pages.length + 2 = (2 * pages.length + 1) + 1 := by omega
  have e2 : 2 * pages.length + 3 = ((2 * pages.length + 1) + 1) + 1 := by omega
  constructor
  · rw [e1]
    simp only [List.cons_append, List.nil_append, List.getElem?_cons_succ]
    rw [List.getElem?_append_right (by omega : (filledBlocks (2 * pages.length + 2) 1 2
      pages).length <= 2 * pages.length)]
    rw [hfl]
    have e3 : 2 * pages.length - 2 * pages.length = 0 := by omega
    rw [e3]
    simp
  · rw [e2]
    simp only [List.cons_append, List.nil_append, List.getElem?_cons_succ]
    rw [List.getElem?_append_right (by omega : (filledBlocks (2 * pages.length + 2) 1 2
      pages).length <= 2 * pages.length + 1)]
    rw [hfl]
    have e4 : 2 * pages.length + 1 - 2 * pages.length = 1 := by omega
    rw [e4]
    simp

theorem pageRefsFrom_eq_range :
    ∀ (ps : List PdfPage) (start : Nat),
      pageRefsFrom start ps
        = (List.range ps.length).map fun k => (start + 2 * k + 1, start + 2 * k) := by
  intro ps
  induction ps with
  | nil => intro start; simp [pageRefsFrom]
  | cons p rest ih =>
    intro start
    simp only [pageRefsFrom, List.length_cons, List.range_succ_eq_map, List.map_cons,
      List.map_map]
    rw [ih (start + 2)]
    have htail : List.map (fun k => (start + 2 + 2 * k + 1, start + 2 + 2 * k))
          (List.range rest.length)
        = List.map ((fun k => (start + 2 * k + 1, start + 2 * k)) ∘ Nat.succ)
          (List.range rest.length) := by
      apply List.map_congr_left
      intro a ha
      simp only [Function.comp_apply, Prod.mk.injEq, Nat.succ_eq_add_one]
      omega
    rw [htail]
    simp

theorem kidsOf_pageRefs (pages : List PdfPage) :
    kidsOf (pageRefsFrom 2 pages)
      = List.intercalate " ".toList
          ((List.range pages.length).map fun k => pyStrNat (2 * k + 3) ++ " 0 R".toList) := by
  rw [kidsOf, pageRefsFrom_eq_range, List.map_map]
  congr 1
  apply List.map_congr_left
  intro k hk
  simp only [Function.comp_apply]
  have e : 2 + 2 * k + 1 = 2 * k + 3 := by omega
  rw [e]

/-! ## Pagination lemmas -/

theorem paginateGo_ne_nil :
    ∀ (items : List RenderItem) (pages : List PdfPage) (current : PdfPage) (used : Nat),
      paginateGo items pages current used ≠ [] := by
  intro items
  induction items with
  | nil =>
    intro pages current used
    by_cases h : current = [] <;> simp [paginateGo, h]
  | cons it rest ih =>
    intro pages current used
    obtain ⟨text, size⟩ := it
    by_cases h : current ≠ [] ∧ used + (size + 4) > PAGE_HEIGHT - 2 * MARGIN
    · rw [paginateGo, if_pos h]
      exact ih _ _ _
    · rw [paginateGo, if_neg h]
      exact ih _ _ _

theorem paginate_ne_nil (items : List RenderItem) : paginate items ≠ [] :=
  paginateGo_ne_nil items [] [] 0

/-! ## Claim theorems -/

/-- C1: for every page list, each cross-reference entry's recorded offset is
the byte position at which `"<i> 0 obj"` begins in the output of
`render_pdf`, the emitted document consists of the object records followed by
the xref section (free entry `"0000000000 65535 f \n"` for id 0, then one
entry per object) and a trailer whose number after `startxref` is exactly the
length of everything before the `"xref"` keyword (its byte offset), and each
entry line `"<10-digit offset> 00000 n \n"` is exactly 20 bytes whenever the
offset fits in ten digits (offset < 10^10, as the fixed-width format
presupposes). -/
theorem c1_xref_integrity (pages : List PdfPage) :
    (∀ k off, (pdfOffsets pages).get? k = some off →
      ∃ a b, render_pdf pages = a ++ (pyStrNat (k + 1) ++ " 0 obj\n".toList) ++ b ∧
        a.length = off) ∧
    (pdfOffsets pages).length = (pdfArena pages).1.length - 1 ∧
    render_pdf pages
      = (emitObjects pdfHeader 1 (pdfArena pages).1.tail).1
        ++ xrefTrailer (pdfArena pages).1.length (pdfArena pages).2 (pdfOffsets pages)
            (emitObjects pdfHeader 1 (pdfArena pages).1.tail).1.length ∧
    (∀ off ∈ pdfOffsets pages, off < 10 ^ 10 →
      (pad10 off ++ " 00000 n \n".toList).length = 20) := by
  refine ⟨?_, ?_, ?_, ?_⟩
  · intro k off h
    have h1 : ∀ n, n + 1 = 1 + n := by omega
    obtain ⟨a, b, hdec, hlen⟩ :=
      emitObjects_pos ((pdfArena pages).1.tail) pdfHeader 1 k off h
    rw [h1 k]
    have hext : ∃ t, render_pdf pages
        = (emitObjects pdfHeader 1 (pdfArena pages).1.tail).1 ++ t := ⟨_, rfl⟩
    obtain ⟨b2, hb2⟩ := exists_decomp_extend hdec hext
    exact ⟨a, b2, hb2, hlen⟩
  · rw [show pdfOffsets pages = (emitObjects pdfHeader 1 (pdfArena pages).1.tail).2 from rfl,
      emitObjects_snd_length]
    cases h : (pdfArena pages).1 with
    | nil => simp
    | cons o rest => simp
  · rfl
  · intro off _ hoff
    simp [List.length_append, pad10_length off hoff]

/-- C2: for every non-empty page list with P pages the arena built by
`render_pdf` holds N + 1 = 2P + 4 slots (ids 0..N, so N = 2P + 3 objects),
exactly one font object, P content-stream objects, P page dictionaries, one
page tree and one catalog; ids follow allocation order (font = 1, content of
page k = 2k + 2, page dictionary of page k = 2k + 3, tree = 2P + 2,
catalog = 2P + 3); each page dictionary references the page tree as parent
and its own content stream; the page tree's /Kids lists exactly the P page
ids in page order with /Count = P; the catalog references the page tree; and
the emitted trailer carries /Size = N + 1 (the arena length) and /Root = the
catalog id. -/
theorem c2_object_graph (pages : List PdfPage) (_hne : pages ≠ []) :
    (pdfArena pages).1.length = 2 * pages.length + 4 ∧
    (pdfArena pages).2 = 2 * pages.length + 3 ∧
    (pdfArena pages).1.countP (bodyIs fontTag) = 1 ∧
    (pdfArena pages).1.countP (bodyIs contentTag) = pages.length ∧
    (pdfArena pages).1.countP (bodyIs pageTag) = pages.length ∧
    (pdfArena pages).1.countP (bodyIs treeTag) = 1 ∧
    (pdfArena pages).1.countP (bodyIs catalogTag) = 1 ∧
    (pdfArena pages).1[1]? = some (some fontBody) ∧
    (∀ k, k < pages.length →
      (pdfArena pages).1[2 * k + 2]?
          = some (some (contentObjBody (buildContentStream (pages.getD k [])))) ∧
      (pdfArena pages).1[2 * k + 3]?
          = some (some (pageDictBody (2 * pages.length + 2) (2 + 2 * k) 1))) ∧
    (pdfArena pages).1[2 * pages.length + 2]?
        = some (some (pagesTreeBody pages.length
            (List.intercalate " ".toList
              ((List.range pages.length).map fun k => pyStrNat (2 * k + 3) ++ " 0 R".toList)))) ∧
    (pdfArena pages).1[2 * pages.length + 3]?
        = some (some (catalogBody (2 * pages.length + 2))) ∧
    render_pdf pages
      = (emitObjects pdfHeader 1 (pdfArena pages).1.tail).1
        ++ xrefTrailer (pdfArena pages).1.length (pdfArena pages).2 (pdfOffsets pages)
            (emitObjects pdfHeader 1 (pdfArena pages).1.tail).1.length := by
  obtain ⟨n1, n2, n3, n4, n5⟩ := pdfArena_counts pages
  obtain ⟨ht, hc⟩ := pdfArena_getElem_tree pages
  refine ⟨?_, ?_, n1, n2, n3, n4, n5, pdfArena_getElem_font pages,
    fun k hk => pdfArena_getElem_page pages k hk, ?_, hc, rfl⟩
  · rw [pdfArena_eq]
    simp [filledBlocks_length]
  · rw [pdfArena_eq]
  · rw [ht, kidsOf_pageRefs]

/-- Witness for C2 at a one-page input: 6 arena slots (N = 5 objects),
catalog id 5, and one page dictionary. -/
theorem c2_object_graph_witness :
    (pdfArena [[("hi".toList, 10)]]).1.length = 6 ∧
    (pdfArena [[("hi".toList, 10)]]).2 = 5 ∧
    (pdfArena [[("hi".toList, 10)]]).1.countP (bodyIs pageTag) = 1 :=
  ⟨(c2_object_graph [[("hi".toList, 10)]] (by simp)).1,
   (c2_object_graph [[("hi".toList, 10)]] (by simp)).2.1,
   (c2_object_graph [[("hi".toList, 10)]] (by simp)).2.2.2.2.1⟩

/-- C3 counterexample: `render_pdf` applied to an empty page list does NOT
synthesize a blank page — the resulting document has zero page dictionaries
(not one) and a page tree with /Count 0 and empty /Kids. -/
theorem c3_blank_page_cex :
    (pdfArena ([] : List PdfPage)).1.countP (bodyIs pageTag) = 0 ∧
    ¬ (pdfArena ([] : List PdfPage)).1.countP (bodyIs pageTag) = 1 ∧
    (pdfArena ([] : List PdfPage)).1[2]? = some (some (pagesTreeBody 0 [])) := by
  decide

/-- C3 amended: the blank-page synthesis lives in `_paginate`, not in
`render_pdf`: `_paginate` of an empty item list returns one page holding a
single blank render item `("", 10)`, and `_paginate` never returns an empty
page list, so every document produced through the pagination pipeline has at
least one page dictionary; `render_pdf` itself, fed an empty page list
directly, emits a zero-page document. -/
theorem c3_blank_page_amended :
    paginate [] = [[(([] : PyStr), 10)]] ∧
    (∀ items, paginate items ≠ []) ∧
    (∀ items, 1 <= (pdfArena (paginate items)).1.countP (bodyIs pageTag)) := by
  refine ⟨rfl, paginate_ne_nil, fun items => ?_⟩
  have hcount := (pdfArena_counts (paginate items)).2.2.1
  rw [hcount]
  have hne := paginate_ne_nil items
  have := List.length_pos.2 hne
  omega

/-- C7: for headers `["A", "B"]` and no rows, `_build_table_lines` returns
exactly the header line, a separator, and one closing separator (each column
2 + header-width wide); composing (any title) and paginating yields exactly
one page, and the encoded document has exactly one page dictionary. -/
theorem c7_empty_table (title : PyStr) :
    buildTableLines ["A".toList, "B".toList] []
      = some ["A   | B  ".toList, "----+----".toList, "----+----".toList] ∧
    pipelinePages title ["A".toList, "B".toList] []
      = some [[(title, 16), (([] : PyStr), 12), ("A   | B  ".toList, 10),
          ("----+----".toList, 10), ("----+----".toList, 10)]] ∧
    (pdfArena [[(title, 16), (([] : PyStr), 12), ("A   | B  ".toList, 10),
        ("----+----".toList, 10), ("----+----".toList, 10)]]).1.countP (bodyIs pageTag)
      = 1 := by
  refine ⟨by decide, ?_, ?_⟩
  · have hb : buildTableLines ["A".toList, "B".toList] []
        = some ["A   | B  ".toList, "----+----".toList, "----+----".toList] := by decide
    simp only [pipelinePages, hb, Option.map_some', List.map_cons, List.map_nil,
      List.cons_append, List.nil_append]
    simp [paginate, paginateGo, PAGE_HEIGHT, MARGIN]
  · exact (pdfArena_counts _).2.2.1

/-! ## Table-composing lemmas (`pdf_table.py`) -/

theorem enumFrom_mapMOpt_ljust :
    ∀ (cells : List PyStr) (start : Nat) (widths : List Nat),
      start + cells.length <= widths.length →
      mapMOpt (fun ic => (widths.get? ic.1).map fun w => ljust ic.2 w)
          (List.enumFrom start cells)
        = some (List.zipWith ljust cells (widths.drop start)) := by
  intro cells
  induction cells with
  | nil => intro start widths h; rfl
  | cons c rest ih =>
    intro start widths h
    simp only [List.length_cons] at h
    have hlt : start < widths.length := by omega
    simp only [List.enumFrom, mapMOpt]
    rw [ih (start + 1) widths (by omega)]
    rw [List.get?_eq_getElem?, List.getElem?_eq_getElem hlt]
    rw [List.drop_eq_getElem_cons hlt]
    simp [List.zipWith]

theorem formatRow_eq (cells : List PyStr) (widths : List Nat)
    (h : cells.length <= widths.length) :
    formatRow cells widths
      = some (List.intercalate " | ".toList (List.zipWith ljust cells widths)) := by
  unfold formatRow
  have he : cells.enum = List.enumFrom 0 cells := rfl
  rw [he, enumFrom_mapMOpt_ljust cells 0 widths (by omega)]
  simp

theorem foldlMOpt_updWidth_some :
    ∀ (parts : List PyStr) (ws : List Nat) (index : Nat), index < ws.length →
      ∃ ws2, foldlMOpt (fun ws part => updWidth ws index part) ws parts = some ws2 ∧
        ws2.length = ws.length := by
  intro parts
  induction parts with
  | nil => intro ws index h; exact ⟨ws, rfl, rfl⟩
  | cons p rest ih =>
    intro ws index h
    have hupd : updWidth ws index p
        = some (ws.set index (max (ws.getD index 0) p.length)) := by
      rw [updWidth, if_pos h]
    obtain ⟨ws2, h2, hl⟩ := ih (ws.set index (max (ws.getD index 0) p.length)) index
      (by simpa using h)
    refine ⟨ws2, ?_, ?_⟩
    · rw [foldlMOpt, hupd, Option.some_bind, h2]
    · rw [hl]
      simp

theorem enumFrom_foldlMOpt_updRow :
    ∀ (row : List (List PyStr)) (start : Nat) (ws : List Nat),
      start + row.length <= ws.length →
      ∃ ws2, foldlMOpt
          (fun ws ip => foldlMOpt (fun ws part => updWidth ws ip.1 part) ws ip.2)
          ws (List.enumFrom start row) = some ws2 ∧
        ws2.length = ws.length := by
  intro row
  induction row with
  | nil => intro start ws h; exact ⟨ws, rfl, rfl⟩
  | cons parts rest ih =>
    intro start ws h
    simp only [List.length_cons] at h
    obtain ⟨ws1, h1, hl1⟩ := foldlMOpt_updWidth_some parts ws start (by omega)
    obtain ⟨ws2, h2, hl2⟩ := ih (start + 1) ws1 (by rw [hl1]; omega)
    refine ⟨ws2, ?_, by rw [hl2, hl1]⟩
    simp only [List.enumFrom, foldlMOpt]
    rw [h1, Option.some_bind, h2]

theorem updRowWidths_some (ws : List Nat) (row : List (List PyStr))
    (h : row.length <= ws.length) :
    ∃ ws2, updRowWidths ws row = some ws2 ∧ ws2.length = ws.length :=
  enumFrom_foldlMOpt_updRow row 0 ws (by omega)

theorem foldlMOpt_updRowWidths_some :
    ∀ (rows : List (List (List PyStr))) (ws : List Nat),
      (∀ row ∈ rows, row.length <= ws.length) →
      ∃ ws2, foldlMOpt updRowWidths ws rows = some ws2 ∧ ws2.length = ws.length := by
  intro rows
  induction rows with
  | nil => intro ws h; exact ⟨ws, rfl, rfl⟩
  | cons row rest ih =>
    intro ws h
    obtain ⟨ws1, h1, hl1⟩ := updRowWidths_some ws row (h row (by simp))
    obtain ⟨ws2, h2, hl2⟩ := ih ws1 (fun r hr => by rw [hl1]; exact h r (by simp [hr]))
    refine ⟨ws2, ?_, by rw [hl2, hl1]⟩
    rw [foldlMOpt, h1, Option.some_bind, h2]

theorem columnWidths_some (headers : List PyStr) (rows : List (List (List PyStr)))
    (h : ∀ row ∈ rows, row.length <= headers.length) :
    ∃ ws, columnWidths headers rows = some ws ∧ ws.length = headers.length := by
  obtain ⟨ws1, h1, hl1⟩ := foldlMOpt_updRowWidths_some rows (headers.map List.length)
    (fun r hr => by simpa using h r hr)
  refine ⟨ws1.map (· + 2), ?_, ?_⟩
  · rw [columnWidths, h1, Option.map_some']
  · simp only [List.length_map]
    simpa using hl1

theorem mapMOpt_some_of_forall {α β : Type} (f : α → Option β) :
    ∀ (l : List α), (∀ a ∈ l, ∃ b, f a = some b) → ∃ bs, mapMOpt f l = some bs := by
  intro l
  induction l with
  | nil => intro h; exact ⟨[], rfl⟩
  | cons a rest ih =>
    intro h
    obtain ⟨b, hb⟩ := h a (by simp)
    obtain ⟨bs, hbs⟩ := ih (fun x hx => h x (by simp [hx]))
    refine ⟨b :: bs, ?_⟩
    rw [mapMOpt, hb, Option.some_bind, hbs, Option.map_some']

theorem rowLines_some (row_segments : List (List PyStr)) (widths : List Nat)
    (h : row_segments.length <= widths.length) :
    ∃ ls, rowLines row_segments widths = some ls := by
  apply mapMOpt_some_of_forall
  intro i hi
  refine ⟨_, formatRow_eq _ widths ?_⟩
  simpa using h

theorem bodyLines_some :
    ∀ (splits : List (List (List PyStr))) (widths : List Nat) (sep : PyStr),
      (∀ rs ∈ splits, rs.length <= widths.length) →
      ∃ b, bodyLines splits widths sep = some b := by
  intro splits
  induction splits with
  | nil => intro widths sep h; exact ⟨[], rfl⟩
  | cons rs rest ih =>
    intro widths sep h
    obtain ⟨ls, hls⟩ := rowLines_some rs widths (h rs (by simp))
    obtain ⟨b, hb⟩ := ih widths sep (fun r hr => h r (by simp [hr]))
    refine ⟨ls ++ [sep] ++ b, ?_⟩
    rw [bodyLines, hls, Option.some_bind, hb, Option.map_some']

theorem buildTableLines_some (headers : List PyStr) (rows : List (List (Option PyStr)))
    (h : ∀ row ∈ rows, row.length <= headers.length) :
    ∃ L, buildTableLines headers rows = some L := by
  obtain ⟨ws, hws, hlen⟩ := columnWidths_some headers (rows.map (·.map splitCell))
    (by
      intro r hr
      obtain ⟨row, hrow, rfl⟩ := List.mem_map.1 hr
      simpa using h row hrow)
  have hfr := formatRow_eq headers ws (by omega)
  obtain ⟨body, hbody⟩ := bodyLines_some (rows.map (·.map splitCell)) ws
    (separatorLine ws)
    (by
      intro r hr
      obtain ⟨row, hrow, rfl⟩ := List.mem_map.1 hr
      rw [hlen]
      simpa using h row hrow)
  rw [← Option.isSome_iff_exists]
  rw [buildTableLines]
  rw [hws, Option.some_bind, hfr, Option.some_bind]
  simp only [hbody, Option.map_some', Option.isSome_some]

/-- Witness for C1 at the empty page list: object 1's record begins at byte
offset 9 (right after the header), and the entry for offset 9 is 20 bytes. -/
theorem c1_xref_integrity_witness :
    (∃ a b, render_pdf [] = a ++ (pyStrNat 1 ++ " 0 obj\n".toList) ++ b ∧ a.length = 9) ∧
    (pad10 9 ++ " 00000 n \n".toList).length = 20 :=
  ⟨(c1_xref_integrity []).1 0 9 (by decide),
   (c1_xref_integrity []).2.2.2 9 (by decide) (by norm_num)⟩


/-- C4 counterexample: a row with fewer cells than headers does NOT render
its missing trailing column as a space-filled field — the body line contains
only the present cell, so it is shorter than the header line (3 vs 9 bytes
for headers ["A","B"] and row ["x"]), contradicting "every formatted line has
the same length as the header line". -/
theorem c4_ragged_rows_cex :
    buildTableLines ["A".toList, "B".toList] [[some "x".toList]]
      = some ["A   | B  ".toList, "----+----".toList, "x  ".toList,
          "----+----".toList] ∧
    ("x  ".toList : PyStr).length ≠ ("A   | B  ".toList : PyStr).length := by
  decide

/-- C4 amended: for a row with fewer cells than headers, `_format_row`
formats only the present cells — each present cell is padded to its column
width and joined with " | ", and the missing trailing columns are omitted
entirely (the line is shorter than the header line, as the counterexample
shows); no exception is raised, and the whole export stays total on such
rows. -/
theorem c4_ragged_rows_amended :
    (∀ (cells : List PyStr) (widths : List Nat), cells.length <= widths.length →
      formatRow cells widths
        = some (List.intercalate " | ".toList (List.zipWith ljust cells widths))) ∧
    (∀ (title : PyStr) (headers : List PyStr) (rows : List (List (Option PyStr))),
      (∀ row ∈ rows, row.length <= headers.length) →
      (build_pdf_table title headers rows).isSome = true) := by
  constructor
  · exact fun cells widths h => formatRow_eq cells widths h
  · intro title headers rows h
    obtain ⟨L, hL⟩ := buildTableLines_some headers rows h
    simp [build_pdf_table, pipelinePages, hL]

/-- Witness for C4 at the counterexample's own input. -/
theorem c4_ragged_rows_witness :
    formatRow ["x".toList] [3, 3]
      = some (List.intercalate " | ".toList (List.zipWith ljust ["x".toList] [3, 3])) ∧
    (build_pdf_table "T".toList ["A".toList, "B".toList] [[some "x".toList]]).isSome
      = true :=
  ⟨c4_ragged_rows_amended.1 ["x".toList] [3, 3] (by decide),
   c4_ragged_rows_amended.2 "T".toList ["A".toList, "B".toList] [[some "x".toList]]
     (by decide)⟩

/-- C5: with page height 792 and margin 40 (usable 712), 30 items of size 10
(step 14) land on exactly one page; 60 such items split into exactly the
first 50 and the last 10, so the 51st item starts the second page; and in
general the greedy forward pass closes the current page exactly when it is
non-empty and `used + (size + 4)` exceeds 712, otherwise it appends the item
and adds the step. -/
theorem c5_pagination_boundary :
    (paginate ((List.range 30).map fun k => (pyStrNat k, 10))).length = 1 ∧
    paginate ((List.range 60).map fun k => (pyStrNat k, 10))
      = [(List.range 50).map fun k => (pyStrNat k, 10),
         ((List.range 60).drop 50).map fun k => (pyStrNat k, 10)] ∧
    (∀ (text : PyStr) (size : Nat) (rest : List RenderItem) (ps : List PdfPage)
        (cur : PdfPage) (used : Nat), cur ≠ [] → used + (size + 4) > 712 →
      paginateGo ((text, size) :: rest) ps cur used
        = paginateGo rest (ps ++ [cur]) [(text, size)] (size + 4)) ∧
    (∀ (text : PyStr) (size : Nat) (rest : List RenderItem) (ps : List PdfPage)
        (cur : PdfPage) (used : Nat), ¬(cur ≠ [] ∧ used + (size + 4) > 712) →
      paginateGo ((text, size) :: rest) ps cur used
        = paginateGo rest ps (cur ++ [(text, size)]) (used + (size + 4))) := by
  have he : PAGE_HEIGHT - 2 * MARGIN = 712 := by decide
  refine ⟨by decide, by decide, ?_, ?_⟩
  · intro text size rest ps cur used h1 h2
    have h3 : used + (size + 4) > PAGE_HEIGHT - 2 * MARGIN := by rw [he]; exact h2
    simp only [paginateGo]
    rw [if_pos ⟨h1, h3⟩]
  · intro text size rest ps cur used h1
    have h3 : ¬(cur ≠ [] ∧ used + (size + 4) > PAGE_HEIGHT - 2 * MARGIN) := by
      rw [he]; exact h1
    simp only [paginateGo]
    rw [if_neg h3]

/-- Witness for C5: one closing step (used 710, step 14 crosses 712) and one
appending step (empty current page never closes). -/
theorem c5_pagination_witness :
    paginateGo [("a".toList, 10)] [] [("b".toList, 10)] 710
      = paginateGo [] ([] ++ [[("b".toList, 10)]]) [("a".toList, 10)] (10 + 4) ∧
    paginateGo [("a".toList, 10)] [] [] 0
      = paginateGo [] [] ([] ++ [("a".toList, 10)]) (0 + (10 + 4)) :=
  ⟨c5_pagination_boundary.2.2.1 "a".toList 10 [] [] [("b".toList, 10)] 710
      (by decide) (by decide),
   c5_pagination_boundary.2.2.2 "a".toList 10 [] [] [] 0 (by decide)⟩

/-- C6: `_escape` replaces backslash first, then "(", then ")" (stated as the
exact composition order), and consequently the cell text `Name (Jr.)\` is
embedded in its content stream as the literal characters `Name \(Jr.\)\\`
inside the `(...) Tj` text-show command. -/
theorem c6_escape_order :
    (∀ value : PyStr, pdfEscape value
        = pyReplaceChar ')' "\\)".toList
            (pyReplaceChar '(' "\\(".toList
              (pyReplaceChar '\\' "\\\\".toList value))) ∧
    pdfEscape "Name (Jr.)\\".toList = "Name \\(Jr.\\)\\\\".toList ∧
    buildContentStream [("Name (Jr.)\\".toList, 10)]
      = "BT /F1 10 Tf 40 742 Td (Name \\(Jr.\\)\\\\) Tj ET".toList := by
  exact ⟨fun value => rfl, by decide, by decide⟩

/-- C9: the export pipeline is a pure function of the triple
(title, headers, rows): any two invocations on equal inputs return
byte-identical output (the embedding is deterministic by construction — the
source iterates only over ordered lists, never over unordered containers). -/
theorem c9_determinism (t1 t2 : PyStr) (h1 h2 : List PyStr)
    (r1 r2 : List (List (Option PyStr))) (ht : t1 = t2) (hh : h1 = h2)
    (hr : r1 = r2) :
    build_pdf_table t1 h1 r1 = build_pdf_table t2 h2 r2 := by
  rw [ht, hh, hr]

/-- Witness for C9 at a concrete triple. -/
theorem c9_determinism_witness :
    build_pdf_table "T".toList ["A".toList] []
      = build_pdf_table "T".toList ["A".toList] [] :=
  c9_determinism "T".toList "T".toList ["A".toList] ["A".toList] [] [] rfl rfl rfl

/-- C10: `build_pdf_table` returns a result (raises nothing) whenever every
row has at most as many cells as there are headers, but a row with MORE
cells than headers makes `_column_widths` index past the width list and the
export fails with an index error (`none`) instead of formatting the extras. -/
theorem c10_arity_safety :
    (∀ (title : PyStr) (headers : List PyStr) (rows : List (List (Option PyStr))),
      (∀ row ∈ rows, row.length <= headers.length) →
      (build_pdf_table title headers rows).isSome = true) ∧
    build_pdf_table "T".toList ["A".toList] [[some "x".toList, some "y".toList]]
      = none := by
  constructor
  · intro title headers rows h
    obtain ⟨L, hL⟩ := buildTableLines_some headers rows h
    simp [build_pdf_table, pipelinePages, hL]
  · decide

/-- Witness for C10: a two-cell row under two headers succeeds. -/
theorem c10_arity_safety_witness :
    (build_pdf_table "T".toList ["A".toList, "B".toList]
      [[some "x".toList, some "y".toList]]).isSome = true :=
  c10_arity_safety.1 "T".toList ["A".toList, "B".toList]
    [[some "x".toList, some "y".toList]] (by decide)

/-- C8 counterexample: `_format_row` does not left-pad (it does not put the
fill spaces before the cell text): on the single cell "1" with width 3 the
code yields "1  " while the spec-worded left-padding variant yields "  1". -/
theorem c8_padding_cex :
    formatRow ["1".toList] [3] = some "1  ".toList ∧
    formatRowSpecLeftPad ["1".toList] [3] = some "  1".toList ∧
    formatRow ["1".toList] [3] ≠ formatRowSpecLeftPad ["1".toList] [3] := by
  decide

/-- C8 amended: `_format_row` left-justifies — it pads each cell on the
RIGHT with spaces to its column width — and joins with " | "; the padded
field of a cell that fits its width has exactly that width, and with the
column widths computed by `_column_widths` (max of header and wrapped-part
lengths, plus 2) every line of the spec's ID/Name example pads column 2 to
exactly len("Bob and a very long name") + 2 = 26, all six lines having the
same total length 33. -/
theorem c8_padding_amended :
    (∀ (cells : List PyStr) (widths : List Nat), cells.length <= widths.length →
      formatRow cells widths
        = some (List.intercalate " | ".toList (List.zipWith ljust cells widths))) ∧
    (∀ (s : PyStr) (w : Nat), ljust s w = s ++ List.replicate (w - s.length) ' ') ∧
    (∀ (s : PyStr) (w : Nat), s.length <= w → (ljust s w).length = w) ∧
    columnWidths ["ID".toList, "Name".toList]
        ([[some "1".toList, some "Alice".toList],
          [some "2".toList, some "Bob and a very long name".toList]].map
          (fun row => row.map splitCell)) = some [4, 26] ∧
    (buildTableLines ["ID".toList, "Name".toList]
        [[some "1".toList, some "Alice".toList],
         [some "2".toList, some "Bob and a very long name".toList]]).map
        (fun L => L.map List.length) = some [33, 33, 33, 33, 33, 33] := by
  refine ⟨fun cells widths h => formatRow_eq cells widths h, fun s w => rfl, ?_,
    by decide, by decide⟩
  intro s w hw
  simp only [ljust, List.length_append, List.length_replicate]
  omega

/-- Witness for C8 at concrete cells and widths. -/
theorem c8_padding_witness :
    formatRow ["1".toList] [3, 3]
      = some (List.intercalate " | ".toList (List.zipWith ljust ["1".toList] [3, 3])) ∧
    (ljust "ab".toList 5).length = 5 :=
  ⟨c8_padding_amended.1 ["1".toList] [3, 3] (by decide),
   c8_padding_amended.2.2.1 "ab".toList 5 (by decide)⟩


/-- Witness for C3's amended statement at the empty item list. -/
theorem c3_blank_page_witness :
    1 <= (pdfArena (paginate [])).1.countP (bodyIs pageTag) :=
  c3_blank_page_amended.2.2 []

/-- Witness for C6 at a one-character instance of each replacement. -/
theorem c6_escape_witness :
    pdfEscape "a(".toList
      = pyReplaceChar ')' "\\)".toList
          (pyReplaceChar '(' "\\(".toList
            (pyReplaceChar '\\' "\\\\".toList "a(".toList)) :=
  c6_escape_order.1 "a(".toList

/-- Witness for C7 at the concrete title "T". -/
theorem c7_empty_table_witness :
    buildTableLines ["A".toList, "B".toList] []
      = some ["A   | B  ".toList, "----+----".toList, "----+----".toList] :=
  (c7_empty_table "T".toList).1

end GSSDA
